import Mathlib

/-!
Verification of the Supertrend + ATR strategy core
(`strategy_core/`: `indicators.py`, `signals.py`, `risk.py`,
`state.py`, `config.py`, `engine.py`).

Numbers are modelled as exact rationals; the floating-point value
`NaN` used by the source as the "undefined" sentinel is modelled by
`Option ℚ` with `none` playing the role of `NaN` (every comparison
against `none` is false, as every comparison against `NaN` is false).
Python's `int(x)` truncation toward zero is modelled by `pytrunc`.
-/

namespace StrategyCore

/-- Python `int(x)` for a real `x`: truncation toward zero. -/
def pytrunc (q : ℚ) : ℤ := if 0 ≤ q then ⌊q⌋ else ⌈q⌉

/-- One OHLCV candle (record form of `_to_arrays` input). -/
structure Candle where
  open_ : ℚ
  high : ℚ
  low : ℚ
  close : ℚ
  volume : ℚ
deriving Repr, DecidableEq

/-- `strategy_core/state.py`: position side literal. -/
inductive PositionSide where
  | FLAT
  | LONG
  | SHORT
deriving Repr, DecidableEq

/-- `strategy_core/state.py`: `TradeState` dataclass. -/
structure TradeState where
  position_side : PositionSide
  entry_price : ℚ
  stop_loss : ℚ
  take_profit : ℚ
  trailing_stop : Option ℚ
  bars_in_trade : ℕ
  extreme_price : ℚ
  initial_stop_loss : ℚ := 0
deriving Repr, DecidableEq

/-- `TradeState.flat()`. -/
def TradeState.flat : TradeState :=
  { position_side := .FLAT
    entry_price := 0
    stop_loss := 0
    take_profit := 0
    trailing_stop := none
    bars_in_trade := 0
    extreme_price := 0 }

/-- `strategy_core/config.py`: `StrategyConfig` dataclass. -/
structure StrategyConfig where
  atr_period : ℕ := 10
  supertrend_factor : ℚ := 4
  risk_atr_mult : ℚ := 5/2
  tsl_atr_mult : ℚ := 5/2
  tp_rr : ℚ := 2
  margin_pct : ℚ := 1/50
  leverage_min : ℤ := 5
  leverage_max : ℤ := 20
  leverage : ℤ := 5
  max_bars_in_trade : ℕ := 96
  time_exit_flat_r : ℚ := 1/2
  volatility_filter_enabled : Bool := true
  volatility_median_window : ℕ := 20
  flip_confirm_atr_pct : ℚ := 3/20
deriving Repr, DecidableEq

/-- `contract_specs` mapping consumed by the engine: the two keys it
reads, `none` modelling an absent key (`dict.get` default applies). -/
structure ContractSpecs where
  min_quantity : Option ℚ
  quantity_step : Option ℚ
deriving Repr, DecidableEq

/-- `strategy_core/engine.py`: `ProposedPosition` TypedDict. -/
structure ProposedPosition where
  side : String
  quantity : ℚ
  leverage : ℤ
  entry_price : ℚ
  stop_loss : ℚ
  take_profit : ℚ
deriving Repr, DecidableEq

/-- `strategy_core/engine.py`: `StrategyOutput` TypedDict. -/
structure StrategyOutput where
  signal : String
  reason : String
  proposed_position : Option ProposedPosition
deriving Repr, DecidableEq

/-! ## Indicators (`strategy_core/indicators.py`) -/

/-- The true-range array built by the first loop of `wilder_atr`:
`tr[0] = high[0] - low[0]`,
`tr[i] = max(high[i]-low[i], |high[i]-close[i-1]|, |low[i]-close[i-1]|)`. -/
def trList (high low close : List ℚ) : List ℚ :=
  (List.range close.length).map fun i =>
    if i = 0 then high.getD 0 0 - low.getD 0 0
    else
      max (high.getD i 0 - low.getD i 0)
        (max |high.getD i 0 - close.getD (i - 1) 0|
          |low.getD i 0 - close.getD (i - 1) 0|)

/-- The smoothing loop of `wilder_atr` (`for i in range(period, n)`):
accumulates the values `atr[period], atr[period+1], ...`, each step
reading the previous value (`base` when none has been produced yet). -/
def atrRest (tr : List ℚ) (period : ℕ) (base : ℚ) (k : ℕ) : List ℚ :=
  (List.range k).foldl
    (fun (acc : List ℚ) _ =>
      acc ++ [(acc.getLastD base * ((period : ℚ) - 1)
        + tr.getD (period + acc.length) 0) / (period : ℚ)])
    []

/-- `wilder_atr`: Wilder-smoothed ATR.  Entries before index
`period - 1` are `NaN` (`none`); `atr[period-1]` is the arithmetic
mean of `tr[0..period-1]`; later entries follow
`atr[i] = (atr[i-1]*(period-1) + tr[i]) / period`.  If the series is
shorter than `period` the whole output is `NaN`.  The tail is built
by the same left-to-right accumulation as the source loop. -/
def wilder_atr (high low close : List ℚ) (period : ℕ) : List (Option ℚ) :=
  let n := close.length
  let tr := trList high low close
  if n < period then List.replicate n none
  else
    let base := (tr.take period).sum / (period : ℚ)
    List.replicate (period - 1) none ++ [some base]
      ++ (atrRest tr period base (n - period)).map some

/-- Per-index carried state of the `supertrend` forward loop: the
(possibly tightened) bands, supertrend value and direction at the
previous index. -/
structure STState where
  upper : Option ℚ
  lower : Option ℚ
  st : Option ℚ
  dir : ℚ
deriving Repr, DecidableEq

/-- Loop state at index `0`: raw bands (NaN when ATR is NaN),
`st[0] = NaN`, `direction[0] = 0`. -/
def stInit (high low : List ℚ) (atr : List (Option ℚ)) (factor : ℚ) : STState :=
  let m := (high.getD 0 0 + low.getD 0 0) / 2
  { upper := (atr.getD 0 none).map fun a => m + factor * a
    lower := (atr.getD 0 none).map fun a => m - factor * a
    st := none
    dir := 0 }

/-- One iteration of the `supertrend` loop at index `i ≥ 1`.
When `atr[i]` is NaN or `≤ 0` the previous `st`/`direction` are
propagated (with `st[i] = close[i]` when `st[i-1]` is NaN) and the
bands stay raw; otherwise the bands are tightened against the
previous (mutated) bands, the direction rule is applied literally
(`i = 1` seeds `+1`) and `st[i]` is the active band. -/
def stStep (high low close : List ℚ) (atr : List (Option ℚ)) (factor : ℚ)
    (i : ℕ) (s : STState) : STState :=
  let m := (high.getD i 0 + low.getD i 0) / 2
  let cont : STState :=
    { upper := (atr.getD i none).map fun a => m + factor * a
      lower := (atr.getD i none).map fun a => m - factor * a
      st := some ((s.st).getD (close.getD i 0))
      dir := s.dir }
  match atr.getD i none with
  | none => cont
  | some a =>
    if a ≤ 0 then cont
    else
      let ru := m + factor * a
      let rl := m - factor * a
      let u := match s.upper with
        | some pu => if close.getD (i - 1) 0 ≤ pu then min ru pu else ru
        | none => ru
      let lo := match s.lower with
        | some pl => if pl ≤ close.getD (i - 1) 0 then max rl pl else rl
        | none => rl
      let d : ℚ :=
        if i = 1 then 1
        else
          match s.st, s.upper with
          | some sv, some pu =>
            if sv = pu then (if u < close.getD i 0 then -1 else 1)
            else (if close.getD i 0 < lo then 1 else -1)
          | _, _ => if close.getD i 0 < lo then 1 else -1
      { upper := some u
        lower := some lo
        st := some (if 0 < d then lo else u)
        dir := d }

/-- The `supertrend` loop state after processing indices `1..i`. -/
def stIter (high low close : List ℚ) (atr : List (Option ℚ)) (factor : ℚ) :
    ℕ → STState
  | 0 => stInit high low atr factor
  | i + 1 => stStep high low close atr factor (i + 1)
      (stIter high low close atr factor i)

/-- `supertrend`: returns the pair of arrays
`(supertrend values, direction)`. -/
def supertrend (high low close : List ℚ) (atr : List (Option ℚ)) (factor : ℚ) :
    List (Option ℚ) × List ℚ :=
  ((List.range close.length).map fun i => (stIter high low close atr factor i).st,
   (List.range close.length).map fun i => (stIter high low close atr factor i).dir)

/-- `np.median` of a nonempty list (sort; middle element, or the mean
of the two middle elements for even length). -/
def median (xs : List ℚ) : ℚ :=
  let s := xs.insertionSort (· ≤ ·)
  let k := xs.length
  if k % 2 = 1 then s.getD (k / 2) 0
  else (s.getD (k / 2 - 1) 0 + s.getD (k / 2) 0) / 2

/-- `atr_above_median`: the volatility filter.  Fails open (returns
`true`) on short history or when any entry of the inclusive window
`atr[idx-window .. idx]` is NaN; otherwise compares `atr[idx]` to the
median of the exclusive window `atr[idx-window .. idx-1]`. -/
def atr_above_median (atr : List (Option ℚ)) (idx window : ℕ) : Bool :=
  if idx < window then true
  else if ((List.range (window + 1)).map fun j =>
      atr.getD (idx - window + j) none).any (·.isNone) then true
  else
    let vals := (List.range window).map fun j =>
      (atr.getD (idx - window + j) none).getD 0
    decide (median vals < (atr.getD idx none).getD 0)

/-! ## Signals (`strategy_core/signals.py`) -/

/-- `detect_flip`: LONG on a `-1 → +1` direction change, SHORT on
`+1 → -1`, else nothing.  The float entries are truncated to ints as
`int(direction[...])` does. -/
def detect_flip (direction : List ℚ) (idx : ℕ) : Option String :=
  if idx < 1 then none
  else
    let prev := pytrunc (direction.getD (idx - 1) 0)
    let curr := pytrunc (direction.getD idx 0)
    if prev = -1 ∧ curr = 1 then some "LONG"
    else if prev = 1 ∧ curr = -1 then some "SHORT"
    else none

/-- `check_exit`: exit predicates in priority order
stop → take-profit → trailing → time, first match winning.
(The source computes `initial_stop`/`stop_distance` here but never
uses them; they are omitted as dead code.) -/
def check_exit (state : TradeState) (high low _close _atr : ℚ)
    (_config_tp_rr _config_tsl_mult : ℚ) (config_max_bars : ℕ) : Option String :=
  match state.position_side with
  | .FLAT => none
  | .LONG =>
    if low ≤ state.stop_loss then some "stop_hit"
    else if state.take_profit ≤ high then some "tp_hit"
    else if (match state.trailing_stop with
        | some ts => decide (low ≤ ts)
        | none => false) then some "trailing_stop"
    else if config_max_bars ≤ state.bars_in_trade then some "time_exit"
    else none
  | .SHORT =>
    if state.stop_loss ≤ high then some "stop_hit"
    else if low ≤ state.take_profit then some "tp_hit"
    else if (match state.trailing_stop with
        | some ts => decide (ts ≤ high)
        | none => false) then some "trailing_stop"
    else if config_max_bars ≤ state.bars_in_trade then some "time_exit"
    else none

/-- `update_trailing`: trailing-stop level after this bar, `none`
while not yet activated.  `if state.initial_stop_loss` is Python
truthiness, i.e. false exactly when the field is `0.0`. -/
def update_trailing (state : TradeState) (high low atr tsl_mult : ℚ) :
    Option ℚ :=
  match state.position_side with
  | .FLAT => none
  | .LONG =>
    let initial_stop :=
      if state.initial_stop_loss ≠ 0 then state.initial_stop_loss
      else state.stop_loss
    let stop_distance := |state.entry_price - initial_stop|
    let extreme := max state.extreme_price high
    match state.trailing_stop with
    | none =>
      if state.entry_price + stop_distance ≤ extreme then
        some (max state.stop_loss (extreme - tsl_mult * atr))
      else none
    | some ts =>
      if state.entry_price + stop_distance ≤ extreme then
        some (max ts (extreme - tsl_mult * atr))
      else some ts
  | .SHORT =>
    let initial_stop :=
      if state.initial_stop_loss ≠ 0 then state.initial_stop_loss
      else state.stop_loss
    let stop_distance := |state.entry_price - initial_stop|
    let extreme := min state.extreme_price low
    match state.trailing_stop with
    | none =>
      if extreme ≤ state.entry_price - stop_distance then
        some (min state.stop_loss (extreme + tsl_mult * atr))
      else none
    | some ts =>
      if extreme ≤ state.entry_price - stop_distance then
        some (min ts (extreme + tsl_mult * atr))
      else some ts

/-! ## Risk (`strategy_core/risk.py`) -/

/-- `position_size`: margin-based sizing with exchange-step rounding
(`int(raw_qty / quantity_step)` truncates toward zero). -/
def position_size (balance margin_pct entry_price : ℚ) (leverage : ℤ)
    (min_qty quantity_step : ℚ) : ℚ × ℤ :=
  if balance ≤ 0 ∨ entry_price ≤ 0 ∨ margin_pct ≤ 0 then (0, leverage)
  else
    let margin := balance * margin_pct
    let raw_qty := margin * (leverage : ℚ) / entry_price
    let quantity :=
      if 0 < quantity_step then
        (pytrunc (raw_qty / quantity_step) : ℚ) * quantity_step
      else raw_qty
    if quantity < min_qty then (0, leverage) else (quantity, leverage)

/-- `compute_leverage`: clamp to `[leverage_min, leverage_max]`. -/
def compute_leverage (base_leverage leverage_min leverage_max : ℤ) : ℤ :=
  max leverage_min (min leverage_max base_leverage)

/-! ## Engine (`strategy_core/engine.py`) -/

/-- The in-flight state formed by the open-position block of
`process_candle`: bump `bars_in_trade` and update the running extreme
(seeding from the current bar when the stored extreme is the sentinel
`0`).  Note the source rebuilds the state without passing
`initial_stop_loss`, resetting it to its default `0`. -/
def stateWithExtreme (prev_state : TradeState) (high_val low_val : ℚ) :
    TradeState :=
  let new_extreme :=
    if prev_state.extreme_price = 0 then
      (if prev_state.position_side = .LONG then high_val else low_val)
    else
      (if prev_state.position_side = .LONG then
        max prev_state.extreme_price high_val
      else min prev_state.extreme_price low_val)
  { position_side := prev_state.position_side
    entry_price := prev_state.entry_price
    stop_loss := prev_state.stop_loss
    take_profit := prev_state.take_profit
    trailing_stop := prev_state.trailing_stop
    bars_in_trade := prev_state.bars_in_trade + 1
    extreme_price := new_extreme
    initial_stop_loss := 0 }

/-- The exit / hold decision of the open-position block, after the
in-flight state has been formed. -/
def openPositionDecide (state_with_extreme : TradeState)
    (high_val low_val close_val atr_val : ℚ) (config : StrategyConfig) :
    StrategyOutput :=
  match check_exit state_with_extreme high_val low_val close_val atr_val
      config.tp_rr config.tsl_atr_mult config.max_bars_in_trade with
  | some exit_reason =>
    { signal := "EXIT", reason := exit_reason, proposed_position := none }
  | none =>
    let _ := update_trailing state_with_extreme high_val low_val atr_val
      config.tsl_atr_mult
    { signal := "HOLD", reason := "position_open", proposed_position := none }

/-- The open-position block of `process_candle`: form the in-flight
state, check the exit predicates, and otherwise hold; the freshly
computed trailing level is discarded (`_ = update_trailing(...)`). -/
def openPositionBranch (prev_state : TradeState)
    (high_val low_val close_val atr_val : ℚ) (config : StrategyConfig) :
    StrategyOutput :=
  openPositionDecide (stateWithExtreme prev_state high_val low_val)
    high_val low_val close_val atr_val config

/-- The flat block of `process_candle`: flip detection, volatility
filter, SL/TP construction and sizing. -/
def flatBranch (direction : List ℚ) (atr : List (Option ℚ)) (idx : ℕ)
    (close_val atr_val account_equity min_qty quantity_step : ℚ)
    (config : StrategyConfig) : StrategyOutput :=
  match detect_flip direction idx with
  | none => { signal := "HOLD", reason := "no_flip", proposed_position := none }
  | some flip =>
    if config.volatility_filter_enabled
        ∧ ¬ atr_above_median atr idx config.volatility_median_window then
      { signal := "HOLD", reason := "volatility_filter", proposed_position := none }
    else
      let entry_price := close_val
      let stop_distance := config.risk_atr_mult * atr_val
      let stop_loss :=
        if flip = "LONG" then entry_price - stop_distance
        else entry_price + stop_distance
      let take_profit :=
        if flip = "LONG" then entry_price + stop_distance * config.tp_rr
        else entry_price - stop_distance * config.tp_rr
      let leverage := compute_leverage config.leverage config.leverage_min
        config.leverage_max
      let ql := position_size account_equity config.margin_pct entry_price
        leverage min_qty quantity_step
      if ql.1 ≤ 0 then
        { signal := "HOLD", reason := "below_min_qty", proposed_position := none }
      else
        { signal := flip
          reason := "supertrend_flip"
          proposed_position := some
            { side := flip
              quantity := ql.1
              leverage := ql.2
              entry_price := entry_price
              stop_loss := stop_loss
              take_profit := take_profit } }

/-- `process_candle`: the single engine entry point. -/
def process_candle (ohlcv : List Candle) (account_equity : ℚ)
    (contract_specs : ContractSpecs) (prev_state : TradeState)
    (config : StrategyConfig) : StrategyOutput :=
  let h := ohlcv.map (·.high)
  let l := ohlcv.map (·.low)
  let c := ohlcv.map (·.close)
  let n := c.length
  let min_qty := contract_specs.min_quantity.getD (1/1000)
  let qs0 := contract_specs.quantity_step.getD (1/1000)
  let quantity_step := if qs0 ≤ 0 then (1/1000 : ℚ) else qs0
  if n < config.atr_period + 1 then
    { signal := "HOLD", reason := "insufficient_data", proposed_position := none }
  else
    let idx := n - 1
    let atr := wilder_atr h l c config.atr_period
    let dir := (supertrend h l c atr config.supertrend_factor).2
    match atr.getD idx none with
    | none =>
      { signal := "HOLD", reason := "invalid_atr", proposed_position := none }
    | some atr_val =>
      if atr_val ≤ 0 then
        { signal := "HOLD", reason := "invalid_atr", proposed_position := none }
      else
        let close_val := c.getD idx 0
        let high_val := h.getD idx 0
        let low_val := l.getD idx 0
        if prev_state.position_side ≠ .FLAT then
          openPositionBranch prev_state high_val low_val close_val atr_val config
        else
          flatBranch dir atr idx close_val atr_val account_equity min_qty
            quantity_step config

/-! ## Spec-side reference definitions (for the refinement claim on
`wilder_atr`) -/

/-- Reference true range, following the spec text: `TR[0] = h[0] − l[0]`;
for `i ≥ 1`, `TR[i] = max(h[i]−l[i], |h[i]−c[i−1]|, |l[i]−c[i−1]|)`. -/
def trRef (high low close : List ℚ) (i : ℕ) : ℚ :=
  if i = 0 then high.getD 0 0 - low.getD 0 0
  else
    max (high.getD i 0 - low.getD i 0)
      (max |high.getD i 0 - close.getD (i - 1) 0|
        |low.getD i 0 - close.getD (i - 1) 0|)

/-- Reference Wilder ATR, following the spec text: undefined for
`i < P−1`; `ATR[P−1]` = arithmetic mean of `TR[0..P−1]`; for `i ≥ P`,
`ATR[i] = (ATR[i−1]·(P−1) + TR[i]) / P`; every entry undefined when
the series is shorter than `P`. -/
def atrRef (high low close : List ℚ) (period : ℕ) (i : ℕ) : Option ℚ :=
  if close.length < period then none
  else if i + 1 < period then none
  else if i + 1 = period then
    some (((List.range period).map (trRef high low close)).sum / (period : ℚ))
  else
    match i with
    | 0 => none
    | j + 1 => (atrRef high low close period j).map fun prev =>
        (prev * ((period : ℚ) - 1) + trRef high low close (j + 1)) / (period : ℚ)

/-! ## Concrete fixtures used by witnesses and counterexamples -/

/-- Candle with the given high/low/close (open and volume are never
read by the engine). -/
def mkC (h l c : ℚ) : Candle := ⟨0, h, l, c, 0⟩

/-- Four identical candles (high 10, low 9, close 9.5); with
`atr_period = 2` and `supertrend_factor = 1` the Supertrend direction
runs `0, +1, −1, +1`, i.e. a LONG flip on the last bar with
`ATR = 1` and supertrend value `8.5` there. -/
def flipCandles : List Candle :=
  [mkC 10 9 (19/2), mkC 10 9 (19/2), mkC 10 9 (19/2), mkC 10 9 (19/2)]

/-- Config used with `flipCandles`: short ATR period, tight factor,
volatility filter off. -/
def flipCfg : StrategyConfig :=
  { atr_period := 2, supertrend_factor := 1, volatility_filter_enabled := false }

/-- Same as `flipCfg` but with a large flip-confirmation buffer
(`flip_confirm_atr_pct = 10`), so the confirmation gate, were it
applied, would reject the flip of `flipCandles`. -/
def gateCfg : StrategyConfig :=
  { atr_period := 2, supertrend_factor := 1, volatility_filter_enabled := false,
    flip_confirm_atr_pct := 10 }

/-- Contract specs with `min_quantity = quantity_step = 0.001`. -/
def specsStd : ContractSpecs := ⟨some (1/1000), some (1/1000)⟩

/-- Three identical candles (high 11, low 9, close 10); with
`atr_period = 3` the first defined ATR index is `2` (`ATR[2] = 2`). -/
def c6Candles : List Candle := [mkC 11 9 10, mkC 11 9 10, mkC 11 9 10]

/-- Malformed candles: every bar has `high = 0 < 1 = low` (and a
negative candle range), yet the ATR is positive through the
`|high − prev_close|` term. -/
def badCandles : List Candle := [mkC 0 1 100, mkC 0 1 100, mkC 0 1 100]

/-- Bars whose range covers both the stop (95) and the target (110)
of `longState`. -/
def exitCandles : List Candle :=
  [mkC 112 94 100, mkC 112 94 100, mkC 112 94 100]

/-- Open LONG at 100 with stop 95 and target 110. -/
def longState : TradeState :=
  { position_side := .LONG, entry_price := 100, stop_loss := 95,
    take_profit := 110, trailing_stop := none, bars_in_trade := 0,
    extreme_price := 0 }

/-- Open LONG at 100 whose trailing stop is already active at 102,
with running extreme 107. -/
def tsState : TradeState :=
  { position_side := .LONG, entry_price := 100, stop_loss := 95,
    take_profit := 110, trailing_stop := some 102, bars_in_trade := 1,
    extreme_price := 107 }

/-- Bars that trigger no exit for `longState` (stop 95 < low 101,
high 105 < target 110). -/
def noExitCandles : List Candle :=
  [mkC 105 101 104, mkC 105 101 104, mkC 105 101 104]

/-! ## Helper lemmas -/

theorem detect_flip_cases {d : List ℚ} {i : ℕ} {f : String}
    (h : detect_flip d i = some f) : f = "LONG" ∨ f = "SHORT" := by
  simp only [detect_flip] at h
  split at h
  · exact absurd h (by simp)
  · split at h
    · exact Or.inl (Option.some_injective _ h).symm
    · split at h
      · exact Or.inr (Option.some_injective _ h).symm
      · exact absurd h (by simp)

theorem check_exit_reasons {s : TradeState} {hi lo cl a tp tsl : ℚ}
    {mb : ℕ} {r : String} (h : check_exit s hi lo cl a tp tsl mb = some r) :
    r = "stop_hit" ∨ r = "tp_hit" ∨ r = "trailing_stop" ∨ r = "time_exit" := by
  unfold check_exit at h
  split at h <;>
    [exact absurd h (by simp);
     skip;
     skip] <;>
  · split at h
    · exact Or.inl (Option.some_injective _ h).symm
    · split at h
      · exact Or.inr (Or.inl (Option.some_injective _ h).symm)
      · split at h
        · exact Or.inr (Or.inr (Or.inl (Option.some_injective _ h).symm))
        · split at h
          · exact Or.inr (Or.inr (Or.inr (Option.some_injective _ h).symm))
          · exact absurd h (by simp)

/-! ## Claim C1: the flip-confirmation gate -/

/-- C1.  The spec requires a flip-confirmation gate (`HOLD`/`no_flip`
when `c[i] < st[i] + flip_confirm_atr_pct · ATR[i]` for a LONG flip)
between flip detection and the volatility filter.  The engine never
applies it: on `flipCandles` with `flip_confirm_atr_pct = 10` the
last close `9.5` is far below `st + buf = 8.5 + 10·1`, yet
`process_candle` emits the LONG entry instead of holding. -/
theorem C1_flip_confirm_gate_missing :
    ((supertrend (flipCandles.map (·.high)) (flipCandles.map (·.low))
        (flipCandles.map (·.close))
        (wilder_atr (flipCandles.map (·.high)) (flipCandles.map (·.low))
          (flipCandles.map (·.close)) gateCfg.atr_period)
        gateCfg.supertrend_factor).1).getD 3 none = some (17/2) ∧
    (wilder_atr (flipCandles.map (·.high)) (flipCandles.map (·.low))
        (flipCandles.map (·.close)) gateCfg.atr_period).getD 3 none = some 1 ∧
    (flipCandles.map (·.close)).getD 3 0
      < 17/2 + gateCfg.flip_confirm_atr_pct * 1 ∧
    process_candle flipCandles 1000 specsStd TradeState.flat gateCfg =
      ⟨"LONG", "supertrend_flip",
        some ⟨"LONG", 5263/500, 5, 19/2, 7, 29/2⟩⟩ := by
  have hatr : wilder_atr (flipCandles.map (·.high)) (flipCandles.map (·.low))
      (flipCandles.map (·.close)) gateCfg.atr_period
        = [none, some 1, some 1, some 1] := by
    norm_num [wilder_atr, trList, atrRest, flipCandles, gateCfg, mkC,
      List.range_succ, List.replicate_succ, max_def, abs_of_nonneg]
  refine ⟨?_, ?_, ?_, ?_⟩
  · rw [hatr]
    norm_num [supertrend, stIter, stStep, stInit, flipCandles, gateCfg, mkC,
      List.range_succ, max_def, abs_of_nonneg]
  · rw [hatr]; rfl
  · norm_num [flipCandles, gateCfg, mkC]
  · norm_num [process_candle, flatBranch, detect_flip, atr_above_median, median,
      position_size, compute_leverage, pytrunc, wilder_atr, trList, atrRest,
      supertrend, stIter, stStep, stInit, flipCandles, gateCfg, specsStd, mkC,
      TradeState.flat, List.range_succ, max_def, abs_of_nonneg,
      Int.ceil_neg, Int.floor_one, Int.ceil_one, Int.floor_zero]

/-! ## Claim C6: direction seeding at the first defined index -/

/-- C6, counterexample.  With `atr_period = 3` on three identical
candles, the first defined ATR index is `2 = P − 1` (with
`ATR[2] = 2 > 0`), yet the Supertrend direction there is `−1`, not
the claimed seed `+1` (the `dir = +1` seeding only happens at
`i = 1`). -/
theorem C6_seed_counterexample :
    (wilder_atr (c6Candles.map (·.high)) (c6Candles.map (·.low))
        (c6Candles.map (·.close)) 3).getD 2 none = some 2 ∧
    ((supertrend (c6Candles.map (·.high)) (c6Candles.map (·.low))
        (c6Candles.map (·.close))
        (wilder_atr (c6Candles.map (·.high)) (c6Candles.map (·.low))
          (c6Candles.map (·.close)) 3) 4).2).getD 2 0 = -1 ∧
    ((-1 : ℚ) ≠ 1) := by
  have hatr : wilder_atr (c6Candles.map (·.high)) (c6Candles.map (·.low))
      (c6Candles.map (·.close)) 3 = [none, none, some 2] := by
    norm_num [wilder_atr, trList, atrRest, c6Candles, mkC, List.range_succ,
      List.replicate_succ, max_def, abs_of_nonneg]
  refine ⟨by rw [hatr]; rfl, ?_, by norm_num⟩
  rw [hatr]
  norm_num [supertrend, stIter, stStep, stInit, c6Candles, mkC,
    List.range_succ, max_def, abs_of_nonneg]

/-- C6, amended.  The `+1` seed is only applied at loop index `1`,
so the direction at the first defined ATR index is seeded to `+1`
exactly when that index is `1`, i.e. when `atr_period = 2`: for any
series whose period-2 ATR at index 1 is defined and positive, the
direction there is `+1`. -/
theorem C6_seed_amended (h l c : List ℚ) (F a : ℚ)
    (ha : (wilder_atr h l c 2).getD 1 none = some a) (ha0 : 0 < a)
    (hn : 2 ≤ c.length) :
    ((supertrend h l c (wilder_atr h l c 2) F).2).getD 1 0 = 1 := by
  have h1 : 1 < c.length := lt_of_lt_of_le one_lt_two hn
  unfold supertrend
  rw [List.getD_eq_getElem _ _ (by simpa using h1)]
  rw [List.getElem_map, List.getElem_range]
  show (stStep h l c (wilder_atr h l c 2) F 1 (stIter h l c (wilder_atr h l c 2) F 0)).dir = 1
  unfold stStep
  rw [ha]
  simp [not_le.mpr ha0]

/-- Witness for the amended C6 on `flipCandles` (period-2 ATR at
index 1 is `1 > 0`). -/
theorem C6_seed_amended_witness :
    ((supertrend (flipCandles.map (·.high)) (flipCandles.map (·.low))
        (flipCandles.map (·.close))
        (wilder_atr (flipCandles.map (·.high)) (flipCandles.map (·.low))
          (flipCandles.map (·.close)) 2) 1).2).getD 1 0 = 1 := by
  refine C6_seed_amended _ _ _ 1 1 ?_ one_pos (by norm_num [flipCandles])
  norm_num [wilder_atr, trList, atrRest, flipCandles, mkC, List.range_succ,
    max_def, abs_of_nonneg]

/-! ## Claim C9: totality and classification of malformed input -/

/-- C9, counterexample.  `badCandles` is malformed (every bar has
`high = 0 < 1 = low`), yet `process_candle` does not return the
claimed HOLD/`invalid_input`: it runs the normal pipeline and emits a
SHORT entry proposal. -/
theorem C9_invalid_input_counterexample :
    (badCandles.map (·.high)).getD 0 0 < (badCandles.map (·.low)).getD 0 0 ∧
    process_candle badCandles 1000 specsStd TradeState.flat flipCfg =
      ⟨"SHORT", "supertrend_flip",
        some ⟨"SHORT", 1, 5, 100, 2295/8, -1095/4⟩⟩ ∧
    (process_candle badCandles 1000 specsStd TradeState.flat
        flipCfg).reason ≠ "invalid_input" ∧
    (process_candle badCandles 1000 specsStd TradeState.flat
        flipCfg).signal ≠ "HOLD" := by
  have hout : process_candle badCandles 1000 specsStd TradeState.flat flipCfg =
      ⟨"SHORT", "supertrend_flip",
        some ⟨"SHORT", 1, 5, 100, 2295/8, -1095/4⟩⟩ := by
    norm_num [process_candle, flatBranch, detect_flip, atr_above_median, median,
      position_size, compute_leverage, pytrunc, wilder_atr, trList, atrRest,
      supertrend, stIter, stStep, stInit, badCandles, flipCfg, specsStd, mkC,
      TradeState.flat, List.range_succ, max_def, abs_of_nonneg,
      Int.ceil_neg, Int.floor_one, Int.ceil_one, Int.floor_zero]
    decide
  refine ⟨by norm_num [badCandles, mkC], hout, ?_, ?_⟩ <;> rw [hout] <;> decide

/-! ## Claim C3: trailing-stop ratchet -/

/-- C3.  For every non-FLAT state, once `trailing_stop` is set,
`update_trailing` returns a level (never `none`) that is `≥` the old
level for LONG and `≤` it for SHORT; and on first activation
(`trailing_stop = none` but a level is returned) the level is clamped
at or beyond the current `stop_loss` (`≥` for LONG, `≤` for SHORT). -/
theorem C3_trailing_ratchet (s : TradeState) (hi lo a m : ℚ)
    (hside : s.position_side ≠ .FLAT) :
    (∀ t, s.trailing_stop = some t →
      (update_trailing s hi lo a m).isSome = true ∧
      (s.position_side = .LONG → t ≤ (update_trailing s hi lo a m).getD 0) ∧
      (s.position_side = .SHORT → (update_trailing s hi lo a m).getD 0 ≤ t)) ∧
    (s.trailing_stop = none → ∀ u, update_trailing s hi lo a m = some u →
      (s.position_side = .LONG → s.stop_loss ≤ u) ∧
      (s.position_side = .SHORT → u ≤ s.stop_loss)) := by
  obtain ⟨ps, ep, sl, tp, ts, bit, xp, isl⟩ := s
  cases ps with
  | FLAT => exact absurd rfl hside
  | LONG =>
    constructor
    · rintro t rfl
      simp only [update_trailing]
      refine ⟨?_, ?_, ?_⟩
      · split <;> split <;> rfl
      · intro _
        split <;> split
        · exact le_max_left _ _
        · exact le_refl t
        · exact le_max_left _ _
        · exact le_refl t
      · intro hc; exact nomatch hc
    · rintro rfl u hu
      simp only [update_trailing] at hu
      split at hu <;> split at hu
      · exact ⟨fun _ => (le_max_left _ _).trans (Option.some_injective _ hu).le,
          fun hc => nomatch hc⟩
      · exact nomatch hu
      · exact ⟨fun _ => (le_max_left _ _).trans (Option.some_injective _ hu).le,
          fun hc => nomatch hc⟩
      · exact nomatch hu
  | SHORT =>
    constructor
    · rintro t rfl
      simp only [update_trailing]
      refine ⟨?_, ?_, ?_⟩
      · split <;> split <;> rfl
      · intro hc; exact nomatch hc
      · intro _
        split <;> split
        · exact min_le_left _ _
        · exact le_refl t
        · exact min_le_left _ _
        · exact le_refl t
    · rintro rfl u hu
      simp only [update_trailing] at hu
      split at hu <;> split at hu
      · exact ⟨fun hc => (nomatch hc), fun _ =>
          (le_of_eq (Option.some_injective _ hu).symm).trans (min_le_left _ _)⟩
      · exact nomatch hu
      · exact ⟨fun hc => (nomatch hc), fun _ =>
          (le_of_eq (Option.some_injective _ hu).symm).trans (min_le_left _ _)⟩
      · exact nomatch hu

/-- Witness for C3 on `tsState` (active trailing stop 102, extreme
107, bar high 109, `ATR = 2`, multiplier `2.5`). -/
theorem C3_trailing_ratchet_witness :
    (update_trailing tsState 109 100 2 (5/2)).isSome = true ∧
    (102 : ℚ) ≤ (update_trailing tsState 109 100 2 (5/2)).getD 0 := by
  have h := (C3_trailing_ratchet tsState 109 100 2 (5/2) (by decide)).1 102 rfl
  exact ⟨h.1, h.2.1 rfl⟩


/-- After the length and ATR gates pass, `process_candle` is the
open-position branch or the flat branch according to the state. -/
theorem process_candle_gates (ohlcv : List Candle) (equity : ℚ)
    (specs : ContractSpecs) (prev : TradeState) (cfg : StrategyConfig) (a : ℚ)
    (hn : ¬ ohlcv.length < cfg.atr_period + 1)
    (ha : (wilder_atr (ohlcv.map (·.high)) (ohlcv.map (·.low))
      (ohlcv.map (·.close)) cfg.atr_period).getD (ohlcv.length - 1) none = some a)
    (ha0 : ¬ a ≤ 0) :
    process_candle ohlcv equity specs prev cfg =
      if prev.position_side ≠ .FLAT then
        openPositionBranch prev ((ohlcv.map (·.high)).getD (ohlcv.length - 1) 0)
          ((ohlcv.map (·.low)).getD (ohlcv.length - 1) 0)
          ((ohlcv.map (·.close)).getD (ohlcv.length - 1) 0) a cfg
      else
        flatBranch
          (supertrend (ohlcv.map (·.high)) (ohlcv.map (·.low))
            (ohlcv.map (·.close))
            (wilder_atr (ohlcv.map (·.high)) (ohlcv.map (·.low))
              (ohlcv.map (·.close)) cfg.atr_period) cfg.supertrend_factor).2
          (wilder_atr (ohlcv.map (·.high)) (ohlcv.map (·.low))
            (ohlcv.map (·.close)) cfg.atr_period)
          (ohlcv.length - 1)
          ((ohlcv.map (·.close)).getD (ohlcv.length - 1) 0) a equity
          (specs.min_quantity.getD (1/1000))
          (if specs.quantity_step.getD (1/1000) ≤ 0 then (1/1000 : ℚ)
            else specs.quantity_step.getD (1/1000)) cfg := by
  simp only [process_candle, List.length_map]
  rw [if_neg hn, ha]
  simp only []
  rw [if_neg ha0]

/-- For a LONG state, `low ≤ stop_loss` alone decides the exit. -/
theorem check_exit_stop_long (s : TradeState) (hi lo cl a tp tsl : ℚ) (mb : ℕ)
    (hside : s.position_side = .LONG) (h : lo ≤ s.stop_loss) :
    check_exit s hi lo cl a tp tsl mb = some "stop_hit" := by
  obtain ⟨ps, ep, sl, tpv, ts, bit, xp, isl⟩ := s
  cases ps with
  | FLAT => exact nomatch hside
  | LONG => simp only [check_exit]; rw [if_pos h]
  | SHORT => exact nomatch hside

/-- For a SHORT state, `stop_loss ≤ high` alone decides the exit. -/
theorem check_exit_stop_short (s : TradeState) (hi lo cl a tp tsl : ℚ) (mb : ℕ)
    (hside : s.position_side = .SHORT) (h : s.stop_loss ≤ hi) :
    check_exit s hi lo cl a tp tsl mb = some "stop_hit" := by
  obtain ⟨ps, ep, sl, tpv, ts, bit, xp, isl⟩ := s
  cases ps with
  | FLAT => exact nomatch hside
  | LONG => exact nomatch hside
  | SHORT => simp only [check_exit]; rw [if_pos h]

/-- A firing exit predicate turns the open-position branch into an
EXIT output with that reason. -/
theorem openPositionBranch_exit (prev : TradeState) (hv lv cv a : ℚ)
    (cfg : StrategyConfig) (r : String)
    (h : check_exit (stateWithExtreme prev hv lv) hv lv cv a cfg.tp_rr
      cfg.tsl_atr_mult cfg.max_bars_in_trade = some r) :
    openPositionBranch prev hv lv cv a cfg = ⟨"EXIT", r, none⟩ := by
  unfold openPositionBranch openPositionDecide
  rw [h]

/-- The in-flight state keeps the position side. -/
theorem stateWithExtreme_side (prev : TradeState) (hv lv : ℚ) :
    (stateWithExtreme prev hv lv).position_side = prev.position_side := rfl



/-! ## Claim C2: exit priority -/

/-- C2.  Exit predicates are checked in the order stop, take-profit,
trailing, time with the first match winning: whenever a LONG bar
satisfies both `low ≤ stop_loss` and `high ≥ take_profit`, the result
is `stop_hit`, not `tp_hit` (symmetric for SHORT), both at the
`check_exit` level and through `process_candle`. -/
theorem C2_exit_priority :
    (∀ (s : TradeState) (hi lo cl a tp tsl : ℚ) (mb : ℕ),
      s.position_side = .LONG → lo ≤ s.stop_loss → s.take_profit ≤ hi →
      check_exit s hi lo cl a tp tsl mb = some "stop_hit") ∧
    (∀ (s : TradeState) (hi lo cl a tp tsl : ℚ) (mb : ℕ),
      s.position_side = .SHORT → s.stop_loss ≤ hi → lo ≤ s.take_profit →
      check_exit s hi lo cl a tp tsl mb = some "stop_hit") ∧
    (∀ (ohlcv : List Candle) (equity : ℚ) (specs : ContractSpecs)
      (prev : TradeState) (cfg : StrategyConfig) (a : ℚ),
      ¬ ohlcv.length < cfg.atr_period + 1 →
      (wilder_atr (ohlcv.map (·.high)) (ohlcv.map (·.low))
        (ohlcv.map (·.close)) cfg.atr_period).getD (ohlcv.length - 1) none
          = some a →
      ¬ a ≤ 0 →
      prev.position_side = .LONG →
      (ohlcv.map (·.low)).getD (ohlcv.length - 1) 0 ≤ prev.stop_loss →
      prev.take_profit ≤ (ohlcv.map (·.high)).getD (ohlcv.length - 1) 0 →
      process_candle ohlcv equity specs prev cfg = ⟨"EXIT", "stop_hit", none⟩) ∧
    (∀ (ohlcv : List Candle) (equity : ℚ) (specs : ContractSpecs)
      (prev : TradeState) (cfg : StrategyConfig) (a : ℚ),
      ¬ ohlcv.length < cfg.atr_period + 1 →
      (wilder_atr (ohlcv.map (·.high)) (ohlcv.map (·.low))
        (ohlcv.map (·.close)) cfg.atr_period).getD (ohlcv.length - 1) none
          = some a →
      ¬ a ≤ 0 →
      prev.position_side = .SHORT →
      prev.stop_loss ≤ (ohlcv.map (·.high)).getD (ohlcv.length - 1) 0 →
      (ohlcv.map (·.close)).getD (ohlcv.length - 1) 0 ≤ prev.take_profit →
      process_candle ohlcv equity specs prev cfg = ⟨"EXIT", "stop_hit", none⟩) := by
  refine ⟨fun s hi lo cl a tp tsl mb hs h1 _ =>
      check_exit_stop_long s hi lo cl a tp tsl mb hs h1,
    fun s hi lo cl a tp tsl mb hs h1 _ =>
      check_exit_stop_short s hi lo cl a tp tsl mb hs h1, ?_, ?_⟩
  · intro ohlcv equity specs prev cfg a hn ha ha0 hside hlo hhi
    rw [process_candle_gates ohlcv equity specs prev cfg a hn ha ha0,
      if_pos (by rw [hside]; exact fun hc => nomatch hc)]
    exact openPositionBranch_exit _ _ _ _ _ _ _
      (check_exit_stop_long _ _ _ _ _ _ _ _ hside hlo)
  · intro ohlcv equity specs prev cfg a hn ha ha0 hside hhi hlo
    rw [process_candle_gates ohlcv equity specs prev cfg a hn ha ha0,
      if_pos (by rw [hside]; exact fun hc => nomatch hc)]
    exact openPositionBranch_exit _ _ _ _ _ _ _
      (check_exit_stop_short _ _ _ _ _ _ _ _ hside hhi)

/-- Witness for C2: scenario S3 (LONG entry 100, stop 95, tp 110;
bar low 94, high 112) exits with `stop_hit`. -/
theorem C2_exit_priority_witness :
    process_candle exitCandles 1000 specsStd longState flipCfg =
      ⟨"EXIT", "stop_hit", none⟩ := by
  refine C2_exit_priority.2.2.1 exitCandles 1000 specsStd longState flipCfg 18
    (by decide) ?_ (by norm_num) rfl ?_ ?_
  · norm_num [wilder_atr, trList, atrRest, exitCandles, flipCfg, mkC,
      List.range_succ, List.replicate_succ, max_def, abs_of_nonneg]
  · norm_num [exitCandles, longState, mkC]
  · norm_num [exitCandles, longState, mkC]



/-- A detected flip that passes the volatility filter but sizes to a
non-positive quantity yields HOLD/`below_min_qty`. -/
theorem flatBranch_below_min (d : List ℚ) (atrl : List (Option ℚ)) (idx : ℕ)
    (cv av e mq qs : ℚ) (cfg : StrategyConfig) (f : String)
    (hf : detect_flip d idx = some f)
    (hvol : ¬ ((cfg.volatility_filter_enabled : Prop)
      ∧ ¬ atr_above_median atrl idx cfg.volatility_median_window))
    (hq : (position_size e cfg.margin_pct cv
      (compute_leverage cfg.leverage cfg.leverage_min cfg.leverage_max)
      mq qs).1 ≤ 0) :
    flatBranch d atrl idx cv av e mq qs cfg =
      ⟨"HOLD", "below_min_qty", none⟩ := by
  unfold flatBranch
  rw [hf]
  simp only []
  rw [if_neg hvol, if_pos hq]

/-! ## Claim C7: sizing rejections -/

/-- C7.  `position_size` returns quantity 0 whenever
`equity ≤ 0 ∨ entry ≤ 0 ∨ margin_pct ≤ 0`, and whenever the
step-rounded quantity `floor(raw/step)*step` is below `min_quantity`;
in the engine, a detected flip whose sizing comes back non-positive
produces HOLD/`below_min_qty` with no proposal. -/
theorem C7_sizing_rejects :
    (∀ (b m e : ℚ) (lev : ℤ) (mq qs : ℚ), (b ≤ 0 ∨ e ≤ 0 ∨ m ≤ 0) →
      position_size b m e lev mq qs = (0, lev)) ∧
    (∀ (b m e : ℚ) (lev : ℤ) (mq qs : ℚ),
      ¬ (b ≤ 0 ∨ e ≤ 0 ∨ m ≤ 0) → 0 < qs → (0 : ℤ) ≤ lev →
      ((⌊(b * m * (lev : ℚ) / e) / qs⌋ : ℚ) * qs < mq) →
      position_size b m e lev mq qs = (0, lev)) ∧
    (∀ (ohlcv : List Candle) (equity : ℚ) (specs : ContractSpecs)
      (prev : TradeState) (cfg : StrategyConfig) (a : ℚ) (f : String),
      ¬ ohlcv.length < cfg.atr_period + 1 →
      (wilder_atr (ohlcv.map (·.high)) (ohlcv.map (·.low))
        (ohlcv.map (·.close)) cfg.atr_period).getD (ohlcv.length - 1) none
          = some a →
      ¬ a ≤ 0 →
      prev.position_side = .FLAT →
      detect_flip
        (supertrend (ohlcv.map (·.high)) (ohlcv.map (·.low))
          (ohlcv.map (·.close))
          (wilder_atr (ohlcv.map (·.high)) (ohlcv.map (·.low))
            (ohlcv.map (·.close)) cfg.atr_period) cfg.supertrend_factor).2
        (ohlcv.length - 1) = some f →
      ¬ ((cfg.volatility_filter_enabled : Prop)
        ∧ ¬ atr_above_median
          (wilder_atr (ohlcv.map (·.high)) (ohlcv.map (·.low))
            (ohlcv.map (·.close)) cfg.atr_period)
          (ohlcv.length - 1) cfg.volatility_median_window) →
      (position_size equity cfg.margin_pct
        ((ohlcv.map (·.close)).getD (ohlcv.length - 1) 0)
        (compute_leverage cfg.leverage cfg.leverage_min cfg.leverage_max)
        (specs.min_quantity.getD (1/1000))
        (if specs.quantity_step.getD (1/1000) ≤ 0 then (1/1000 : ℚ)
          else specs.quantity_step.getD (1/1000))).1 ≤ 0 →
      process_candle ohlcv equity specs prev cfg =
        ⟨"HOLD", "below_min_qty", none⟩) := by
  refine ⟨?_, ?_, ?_⟩
  · intro b m e lev mq qs h
    unfold position_size
    rw [if_pos h]
  · intro b m e lev mq qs h hqs hlev hlt
    unfold position_size
    rw [if_neg h]
    simp only []
    rw [if_pos hqs]
    push_neg at h
    obtain ⟨hb, he, hm⟩ := h
    have hraw : (0 : ℚ) ≤ b * m * (lev : ℚ) / e :=
      div_nonneg (mul_nonneg (mul_nonneg hb.le hm.le)
        (Int.cast_nonneg.mpr hlev)) he.le
    rw [pytrunc, if_pos (div_nonneg hraw hqs.le)]
    rw [if_pos ?_]
    exact hlt
  · intro ohlcv equity specs prev cfg a f hn ha ha0 hside hf hvol hq
    rw [process_candle_gates ohlcv equity specs prev cfg a hn ha ha0,
      if_neg (by rw [hside]; exact fun hc => hc rfl)]
    exact flatBranch_below_min _ _ _ _ _ _ _ _ _ _ hf hvol hq



/-- Witness for C7: scenario S7-style (equity 0.001 at entry 9.5
sizes to quantity 0) → HOLD/`below_min_qty`. -/
theorem C7_sizing_rejects_witness :
    process_candle flipCandles (1/1000) specsStd TradeState.flat flipCfg =
      ⟨"HOLD", "below_min_qty", none⟩ := by
  have hatr : wilder_atr (flipCandles.map (·.high)) (flipCandles.map (·.low))
      (flipCandles.map (·.close)) flipCfg.atr_period
        = [none, some 1, some 1, some 1] := by
    norm_num [wilder_atr, trList, atrRest, flipCandles, flipCfg, mkC,
      List.range_succ, List.replicate_succ, max_def, abs_of_nonneg]
  have hdir : (supertrend (flipCandles.map (·.high)) (flipCandles.map (·.low))
      (flipCandles.map (·.close))
      (wilder_atr (flipCandles.map (·.high)) (flipCandles.map (·.low))
        (flipCandles.map (·.close)) flipCfg.atr_period)
      flipCfg.supertrend_factor).2 = [0, 1, -1, 1] := by
    rw [hatr]
    norm_num [supertrend, stIter, stStep, stInit, flipCandles, flipCfg, mkC,
      List.range_succ, max_def, abs_of_nonneg]
  refine C7_sizing_rejects.2.2 flipCandles (1/1000) specsStd TradeState.flat flipCfg 1 "LONG"
    (by decide) ?_ (by norm_num) rfl ?_ ?_ ?_
  · rw [hatr]; norm_num [flipCandles]
  · rw [hdir]
    norm_num [flipCandles, detect_flip, pytrunc, Int.ceil_neg, Int.floor_one,
      Int.ceil_one, Int.floor_zero]
  · simp [flipCfg]
  · norm_num [position_size, compute_leverage, pytrunc, flipCandles, flipCfg,
      specsStd, mkC, Int.floor_zero]



/-- The open-position branch never proposes a position; its signal is
EXIT or HOLD and its reason one of the four exit reasons or
`position_open`. -/
theorem openPositionBranch_shape (prev : TradeState) (hv lv cv a : ℚ)
    (cfg : StrategyConfig) :
    (openPositionBranch prev hv lv cv a cfg).proposed_position = none ∧
    ((openPositionBranch prev hv lv cv a cfg).signal = "EXIT" ∨
      (openPositionBranch prev hv lv cv a cfg).signal = "HOLD") ∧
    ((openPositionBranch prev hv lv cv a cfg).reason = "stop_hit" ∨
      (openPositionBranch prev hv lv cv a cfg).reason = "tp_hit" ∨
      (openPositionBranch prev hv lv cv a cfg).reason = "trailing_stop" ∨
      (openPositionBranch prev hv lv cv a cfg).reason = "time_exit" ∨
      (openPositionBranch prev hv lv cv a cfg).reason = "position_open") := by
  unfold openPositionBranch openPositionDecide
  split
  · next r hr =>
    refine ⟨rfl, Or.inl rfl, ?_⟩
    rcases check_exit_reasons hr with h | h | h | h <;> simp [h]
  · exact ⟨rfl, Or.inr rfl, Or.inr (Or.inr (Or.inr (Or.inr rfl)))⟩

/-- The flat branch proposes a position exactly when its signal is
LONG or SHORT, and its reason is one of the four flat reasons. -/
theorem flatBranch_shape (d : List ℚ) (atrl : List (Option ℚ)) (idx : ℕ)
    (cv av e mq qs : ℚ) (cfg : StrategyConfig) :
    ((flatBranch d atrl idx cv av e mq qs cfg).proposed_position.isSome = true ↔
      ((flatBranch d atrl idx cv av e mq qs cfg).signal = "LONG" ∨
        (flatBranch d atrl idx cv av e mq qs cfg).signal = "SHORT")) ∧
    ((flatBranch d atrl idx cv av e mq qs cfg).reason = "no_flip" ∨
      (flatBranch d atrl idx cv av e mq qs cfg).reason = "volatility_filter" ∨
      (flatBranch d atrl idx cv av e mq qs cfg).reason = "below_min_qty" ∨
      (flatBranch d atrl idx cv av e mq qs cfg).reason = "supertrend_flip") := by
  unfold flatBranch
  split
  · exact ⟨by decide, Or.inl rfl⟩
  · next f hf =>
    split
    · exact ⟨by decide, Or.inr (Or.inl rfl)⟩
    · dsimp only
      split
      · exact ⟨by decide, Or.inr (Or.inr (Or.inl rfl))⟩
      · refine ⟨?_, Or.inr (Or.inr (Or.inr rfl))⟩
        rcases detect_flip_cases hf with rfl | rfl <;> simp

/-! ## Claim C8: output shape -/

/-- C8.  With a non-FLAT previous state the signal is always EXIT or
HOLD (an opposite flip while a position is open is ignored; no direct
LONG/SHORT transition), and in every output `proposed_position` is
present iff the signal is LONG or SHORT. -/
theorem C8_output_shape (ohlcv : List Candle) (equity : ℚ) (specs : ContractSpecs)
    (prev : TradeState) (cfg : StrategyConfig) :
    (prev.position_side ≠ .FLAT →
      (process_candle ohlcv equity specs prev cfg).signal = "EXIT" ∨
      (process_candle ohlcv equity specs prev cfg).signal = "HOLD") ∧
    ((process_candle ohlcv equity specs prev cfg).proposed_position.isSome
        = true ↔
      ((process_candle ohlcv equity specs prev cfg).signal = "LONG" ∨
        (process_candle ohlcv equity specs prev cfg).signal = "SHORT")) := by
  simp only [process_candle]
  split
  · exact ⟨fun _ => Or.inr rfl, by decide⟩
  · split
    · exact ⟨fun _ => Or.inr rfl, by decide⟩
    · split
      · exact ⟨fun _ => Or.inr rfl, by decide⟩
      · split
        · obtain ⟨h1, h2, h3⟩ := openPositionBranch_shape prev _ _ _ _ cfg
          refine ⟨fun _ => h2, ?_⟩
          rw [h1]
          rcases h2 with h | h <;> rw [h] <;> decide
        · next hflat =>
          obtain ⟨hiff, hmem⟩ := flatBranch_shape _ _ _ _ _ equity _ _ cfg
          exact ⟨fun hc => absurd hc hflat, hiff⟩



/-- Witness for C8 at an open LONG position in `exitCandles`. -/
theorem C8_output_shape_witness :
    ((process_candle exitCandles 1000 specsStd longState flipCfg).signal
        = "EXIT" ∨
      (process_candle exitCandles 1000 specsStd longState flipCfg).signal
        = "HOLD") ∧
    ((process_candle exitCandles 1000 specsStd longState
        flipCfg).proposed_position.isSome = true ↔
      ((process_candle exitCandles 1000 specsStd longState flipCfg).signal
          = "LONG" ∨
        (process_candle exitCandles 1000 specsStd longState flipCfg).signal
          = "SHORT")) := by
  have h := C8_output_shape exitCandles 1000 specsStd longState flipCfg
  exact ⟨h.1 (by decide), h.2⟩

/-- C9, amended.  `process_candle` is total over numeric inputs and
every reason it returns lies in the code's closed reason set; in
particular `invalid_input` is never produced. -/
theorem C9_total_reasons (ohlcv : List Candle) (equity : ℚ) (specs : ContractSpecs)
    (prev : TradeState) (cfg : StrategyConfig) :
    (process_candle ohlcv equity specs prev cfg).reason ∈
      ["insufficient_data", "invalid_atr", "no_flip", "volatility_filter",
       "below_min_qty", "position_open", "supertrend_flip", "stop_hit",
       "tp_hit", "trailing_stop", "time_exit"] ∧
    (process_candle ohlcv equity specs prev cfg).reason ≠ "invalid_input" := by
  have hmem : (process_candle ohlcv equity specs prev cfg).reason ∈
      ["insufficient_data", "invalid_atr", "no_flip", "volatility_filter",
       "below_min_qty", "position_open", "supertrend_flip", "stop_hit",
       "tp_hit", "trailing_stop", "time_exit"] := by
    simp only [process_candle]
    split
    · decide
    · split
      · decide
      · split
        · decide
        · split
          · obtain ⟨-, -, h3⟩ := openPositionBranch_shape prev _ _ _ _ cfg
            rcases h3 with h | h | h | h | h <;> rw [h] <;> decide
          · obtain ⟨-, hmem⟩ := flatBranch_shape _ _ _ _ _ equity _ _ cfg
            rcases hmem with h | h | h | h <;> rw [h] <;> decide
  refine ⟨hmem, fun hcontra => ?_⟩
  rw [hcontra] at hmem
  exact absurd hmem (by decide)

/-! ## Claim C10: the hold output and the discarded trailing level -/

/-- C10.  `process_candle` never depends on `tsl_atr_mult` (the
trailing level computed by `update_trailing` is discarded and
`check_exit` ignores its `tsl` parameter), and for an open position
whose bar fires no exit predicate the output is exactly
HOLD/`position_open` with no proposal; the updated trailing level
must be recomputed by the caller via the exported `update_trailing`. -/
theorem C10_hold_independent :
    (∀ (ohlcv : List Candle) (equity : ℚ) (specs : ContractSpecs)
      (prev : TradeState) (cfg : StrategyConfig) (t : ℚ),
      process_candle ohlcv equity specs prev { cfg with tsl_atr_mult := t } =
        process_candle ohlcv equity specs prev cfg) ∧
    (∀ (ohlcv : List Candle) (equity : ℚ) (specs : ContractSpecs)
      (prev : TradeState) (cfg : StrategyConfig) (a : ℚ),
      ¬ ohlcv.length < cfg.atr_period + 1 →
      (wilder_atr (ohlcv.map (·.high)) (ohlcv.map (·.low))
        (ohlcv.map (·.close)) cfg.atr_period).getD (ohlcv.length - 1) none
          = some a →
      ¬ a ≤ 0 →
      prev.position_side ≠ .FLAT →
      check_exit
        (stateWithExtreme prev ((ohlcv.map (·.high)).getD (ohlcv.length - 1) 0)
          ((ohlcv.map (·.low)).getD (ohlcv.length - 1) 0))
        ((ohlcv.map (·.high)).getD (ohlcv.length - 1) 0)
        ((ohlcv.map (·.low)).getD (ohlcv.length - 1) 0)
        ((ohlcv.map (·.close)).getD (ohlcv.length - 1) 0) a
        cfg.tp_rr cfg.tsl_atr_mult cfg.max_bars_in_trade = none →
      process_candle ohlcv equity specs prev cfg =
        ⟨"HOLD", "position_open", none⟩) := by
  constructor
  · intro ohlcv equity specs prev cfg t
    rfl
  · intro ohlcv equity specs prev cfg a hn ha ha0 hside hexit
    rw [process_candle_gates ohlcv equity specs prev cfg a hn ha ha0,
      if_pos hside]
    unfold openPositionBranch openPositionDecide
    rw [hexit]



/-- Witness for C10: an open LONG over bars that trigger nothing
holds with `position_open`, and changing `tsl_atr_mult` to 99 leaves
the output unchanged. -/
theorem C10_hold_independent_witness :
    process_candle noExitCandles 1000 specsStd longState flipCfg =
      ⟨"HOLD", "position_open", none⟩ ∧
    process_candle noExitCandles 1000 specsStd longState
        { flipCfg with tsl_atr_mult := 99 } =
      process_candle noExitCandles 1000 specsStd longState flipCfg := by
  constructor
  · refine C10_hold_independent.2 noExitCandles 1000 specsStd longState flipCfg 4
      (by decide) ?_ (by norm_num) (by decide) ?_
    · norm_num [wilder_atr, trList, atrRest, noExitCandles, flipCfg, mkC,
        List.range_succ, List.replicate_succ, max_def, abs_of_nonneg]
    · norm_num [check_exit, stateWithExtreme, longState, flipCfg,
        noExitCandles, mkC]
  · exact C10_hold_independent.1 noExitCandles 1000 specsStd longState flipCfg 99



/-- Every proposal of the flat branch comes from a detected flip,
with entry at the close, SL/TP from the ATR distance, and the sized
quantity (which passed the positivity check). -/
theorem flatBranch_proposal {d : List ℚ} {atrl : List (Option ℚ)} {idx : ℕ}
    {cv av e mq qs : ℚ} {cfg : StrategyConfig} {p : ProposedPosition}
    (hp : (flatBranch d atrl idx cv av e mq qs cfg).proposed_position
      = some p) :
    ∃ f, detect_flip d idx = some f ∧
      p = ⟨f,
        (position_size e cfg.margin_pct cv
          (compute_leverage cfg.leverage cfg.leverage_min cfg.leverage_max)
          mq qs).1,
        (position_size e cfg.margin_pct cv
          (compute_leverage cfg.leverage cfg.leverage_min cfg.leverage_max)
          mq qs).2,
        cv,
        (if f = "LONG" then cv - cfg.risk_atr_mult * av
          else cv + cfg.risk_atr_mult * av),
        (if f = "LONG" then cv + cfg.risk_atr_mult * av * cfg.tp_rr
          else cv - cfg.risk_atr_mult * av * cfg.tp_rr)⟩ ∧
      ¬ (position_size e cfg.margin_pct cv
          (compute_leverage cfg.leverage cfg.leverage_min cfg.leverage_max)
          mq qs).1 ≤ 0 := by
  unfold flatBranch at hp
  split at hp
  · exact absurd hp (by simp)
  · next f hf =>
    split at hp
    · exact absurd hp (by simp)
    · dsimp only at hp
      split at hp
      · exact absurd hp (by simp)
      · next hq => exact ⟨f, hf, (Option.some_injective _ hp).symm, hq⟩

/-- A positive sized quantity is an integer multiple of the step and
at least the minimum. -/
theorem position_size_emitted (b m e : ℚ) (lev : ℤ) (mq qs : ℚ)
    (hqs : 0 < qs) (h : ¬ (position_size b m e lev mq qs).1 ≤ 0) :
    ((position_size b m e lev mq qs).1 / qs).isInt = true ∧
    mq ≤ (position_size b m e lev mq qs).1 := by
  unfold position_size at h ⊢
  by_cases h1 : b ≤ 0 ∨ e ≤ 0 ∨ m ≤ 0
  · rw [if_pos h1] at h
    exact absurd (le_refl 0) h
  · rw [if_neg h1] at h ⊢
    dsimp only at h ⊢
    rw [if_pos hqs] at h ⊢
    by_cases h2 : ((pytrunc (b * m * (lev : ℚ) / e / qs) : ℚ) * qs) < mq
    · rw [if_pos h2] at h
      exact absurd (le_refl 0) h
    · rw [if_neg h2] at h ⊢
      refine ⟨?_, not_lt.mp h2⟩
      rw [mul_div_cancel_right₀ _ (ne_of_gt hqs)]
      simp [Rat.isInt]



/-! ## Claim C4: well-formedness of emitted proposals -/

/-- C4.  Under a valid config (`risk_atr_mult > 0`, `tp_rr > 0`,
`quantity_step > 0`), every emitted proposal has entry at the last
close, a LONG satisfies `stop < entry < tp` with
`tp − entry = tp_rr · (entry − stop)` and
`entry − stop = risk_atr_mult · ATR[last]` (symmetric for SHORT), and
its quantity is a positive integer multiple of `quantity_step` that
is `≥ min_quantity`. -/
theorem C4_proposal_wellformed (ohlcv : List Candle) (equity mq qs : ℚ)
    (prev : TradeState) (cfg : StrategyConfig) (p : ProposedPosition)
    (hrm : 0 < cfg.risk_atr_mult) (htp : 0 < cfg.tp_rr) (hqs : 0 < qs)
    (hp : (process_candle ohlcv equity ⟨some mq, some qs⟩ prev
      cfg).proposed_position = some p) :
    ((wilder_atr (ohlcv.map (·.high)) (ohlcv.map (·.low))
        (ohlcv.map (·.close)) cfg.atr_period).getD (ohlcv.length - 1)
        none).isSome = true ∧
    0 < ((wilder_atr (ohlcv.map (·.high)) (ohlcv.map (·.low))
        (ohlcv.map (·.close)) cfg.atr_period).getD (ohlcv.length - 1)
        none).getD 0 ∧
    p.entry_price = (ohlcv.map (·.close)).getD (ohlcv.length - 1) 0 ∧
    (p.side = "LONG" ∨ p.side = "SHORT") ∧
    (p.side = "LONG" →
      p.stop_loss < p.entry_price ∧ p.entry_price < p.take_profit ∧
      p.take_profit - p.entry_price
        = cfg.tp_rr * (p.entry_price - p.stop_loss) ∧
      p.entry_price - p.stop_loss
        = cfg.risk_atr_mult * ((wilder_atr (ohlcv.map (·.high))
            (ohlcv.map (·.low)) (ohlcv.map (·.close))
            cfg.atr_period).getD (ohlcv.length - 1) none).getD 0) ∧
    (p.side = "SHORT" →
      p.take_profit < p.entry_price ∧ p.entry_price < p.stop_loss ∧
      p.entry_price - p.take_profit
        = cfg.tp_rr * (p.stop_loss - p.entry_price) ∧
      p.stop_loss - p.entry_price
        = cfg.risk_atr_mult * ((wilder_atr (ohlcv.map (·.high))
            (ohlcv.map (·.low)) (ohlcv.map (·.close))
            cfg.atr_period).getD (ohlcv.length - 1) none).getD 0) ∧
    (p.quantity / qs).isInt = true ∧ mq ≤ p.quantity ∧ 0 < p.quantity := by
  simp only [process_candle, Option.getD_some, List.length_map] at hp
  rw [if_neg (not_le.mpr hqs)] at hp
  split at hp
  · exact absurd hp (by simp)
  · split at hp
    · exact absurd hp (by simp)
    · next a ha =>
      split at hp
      · exact absurd hp (by simp)
      · next ha0 =>
        split at hp
        · rw [(openPositionBranch_shape prev _ _ _ _ cfg).1] at hp
          exact absurd hp (by simp)
        · obtain ⟨f, hf, rfl, hqpos⟩ := flatBranch_proposal hp
          have hav : (0 : ℚ) <
              ((wilder_atr (ohlcv.map (·.high)) (ohlcv.map (·.low))
                (ohlcv.map (·.close)) cfg.atr_period).getD (ohlcv.length - 1)
                none).getD 0 := by
            rw [ha]
            exact lt_of_not_le ha0
          obtain ⟨hint, hmq⟩ := position_size_emitted equity cfg.margin_pct
            ((ohlcv.map (·.close)).getD (ohlcv.length - 1) 0)
            (compute_leverage cfg.leverage cfg.leverage_min cfg.leverage_max)
            mq qs hqs hqpos
          rw [ha]
          simp only [Option.isSome_some, Option.getD_some]
          rw [ha] at hav
          simp only [Option.getD_some] at hav
          refine ⟨trivial, hav, trivial, detect_flip_cases hf, ?_, ?_, hint, hmq,
            lt_of_not_le hqpos⟩
          · intro hs
            simp only [hs, if_pos] at *
            refine ⟨?_, ?_, by ring, by ring⟩
            · exact sub_lt_self _ (mul_pos hrm hav)
            · exact lt_add_of_pos_right _
                (mul_pos (mul_pos hrm hav) htp)
          · intro hs
            rcases detect_flip_cases hf with rfl | rfl
            · exact absurd hs (by decide)
            · simp only [if_neg (by decide : ¬ ("SHORT" : String) = "LONG")]
              refine ⟨?_, ?_, by ring, by ring⟩
              · exact sub_lt_self _ (mul_pos (mul_pos hrm hav) htp)
              · exact lt_add_of_pos_right _ (mul_pos hrm hav)



/-- Witness for C4 on the LONG proposal emitted from `flipCandles`. -/
theorem C4_proposal_wellformed_witness :
    ((wilder_atr (flipCandles.map (·.high)) (flipCandles.map (·.low))
        (flipCandles.map (·.close)) flipCfg.atr_period).getD
        (flipCandles.length - 1) none).isSome = true ∧
    0 < ((wilder_atr (flipCandles.map (·.high)) (flipCandles.map (·.low))
        (flipCandles.map (·.close)) flipCfg.atr_period).getD
        (flipCandles.length - 1) none).getD 0 ∧
    (ProposedPosition.mk "LONG" (5263/500) 5 (19/2) 7 (29/2)).entry_price
      = (flipCandles.map (·.close)).getD (flipCandles.length - 1) 0 ∧
    ((ProposedPosition.mk "LONG" (5263/500) 5 (19/2) 7 (29/2)).side = "LONG" ∨
      (ProposedPosition.mk "LONG" (5263/500) 5 (19/2) 7 (29/2)).side
        = "SHORT") ∧
    ((ProposedPosition.mk "LONG" (5263/500) 5 (19/2) 7 (29/2)).side = "LONG" →
      (ProposedPosition.mk "LONG" (5263/500) 5 (19/2) 7 (29/2)).stop_loss
          < (ProposedPosition.mk "LONG" (5263/500) 5 (19/2) 7 (29/2)).entry_price ∧
      (ProposedPosition.mk "LONG" (5263/500) 5 (19/2) 7 (29/2)).entry_price
          < (ProposedPosition.mk "LONG" (5263/500) 5 (19/2) 7 (29/2)).take_profit ∧
      (ProposedPosition.mk "LONG" (5263/500) 5 (19/2) 7 (29/2)).take_profit
          - (ProposedPosition.mk "LONG" (5263/500) 5 (19/2) 7 (29/2)).entry_price
        = flipCfg.tp_rr
          * ((ProposedPosition.mk "LONG" (5263/500) 5 (19/2) 7 (29/2)).entry_price
            - (ProposedPosition.mk "LONG" (5263/500) 5 (19/2) 7 (29/2)).stop_loss) ∧
      (ProposedPosition.mk "LONG" (5263/500) 5 (19/2) 7 (29/2)).entry_price
          - (ProposedPosition.mk "LONG" (5263/500) 5 (19/2) 7 (29/2)).stop_loss
        = flipCfg.risk_atr_mult * ((wilder_atr (flipCandles.map (·.high))
            (flipCandles.map (·.low)) (flipCandles.map (·.close))
            flipCfg.atr_period).getD (flipCandles.length - 1) none).getD 0) ∧
    ((ProposedPosition.mk "LONG" (5263/500) 5 (19/2) 7 (29/2)).side = "SHORT" →
      (ProposedPosition.mk "LONG" (5263/500) 5 (19/2) 7 (29/2)).take_profit
          < (ProposedPosition.mk "LONG" (5263/500) 5 (19/2) 7 (29/2)).entry_price ∧
      (ProposedPosition.mk "LONG" (5263/500) 5 (19/2) 7 (29/2)).entry_price
          < (ProposedPosition.mk "LONG" (5263/500) 5 (19/2) 7 (29/2)).stop_loss ∧
      (ProposedPosition.mk "LONG" (5263/500) 5 (19/2) 7 (29/2)).entry_price
          - (ProposedPosition.mk "LONG" (5263/500) 5 (19/2) 7 (29/2)).take_profit
        = flipCfg.tp_rr
          * ((ProposedPosition.mk "LONG" (5263/500) 5 (19/2) 7 (29/2)).stop_loss
            - (ProposedPosition.mk "LONG" (5263/500) 5 (19/2) 7 (29/2)).entry_price) ∧
      (ProposedPosition.mk "LONG" (5263/500) 5 (19/2) 7 (29/2)).stop_loss
          - (ProposedPosition.mk "LONG" (5263/500) 5 (19/2) 7 (29/2)).entry_price
        = flipCfg.risk_atr_mult * ((wilder_atr (flipCandles.map (·.high))
            (flipCandles.map (·.low)) (flipCandles.map (·.close))
            flipCfg.atr_period).getD (flipCandles.length - 1) none).getD 0) ∧
    ((ProposedPosition.mk "LONG" (5263/500) 5 (19/2) 7 (29/2)).quantity
        / (1/1000)).isInt = true ∧
    (1/1000 : ℚ) ≤ (ProposedPosition.mk "LONG" (5263/500) 5 (19/2) 7 (29/2)).quantity ∧
    0 < (ProposedPosition.mk "LONG" (5263/500) 5 (19/2) 7 (29/2)).quantity := by
  refine C4_proposal_wellformed flipCandles 1000 (1/1000) (1/1000) TradeState.flat flipCfg
    ⟨"LONG", 5263/500, 5, 19/2, 7, 29/2⟩
    (by norm_num [flipCfg]) (by norm_num [flipCfg]) (by norm_num) ?_
  have hout : process_candle flipCandles 1000 ⟨some (1/1000), some (1/1000)⟩
      TradeState.flat flipCfg =
      ⟨"LONG", "supertrend_flip",
        some ⟨"LONG", 5263/500, 5, 19/2, 7, 29/2⟩⟩ := by
    norm_num [process_candle, flatBranch, detect_flip, atr_above_median, median,
      position_size, compute_leverage, pytrunc, wilder_atr, trList, atrRest,
      supertrend, stIter, stStep, stInit, flipCandles, flipCfg, mkC,
      TradeState.flat, List.range_succ, max_def, abs_of_nonneg,
      Int.ceil_neg, Int.floor_one, Int.ceil_one, Int.floor_zero]
  rw [hout]



/-- The true-range array is pointwise the spec's TR formula. -/
theorem trList_eq (h l c : List ℚ) :
    trList h l c = (List.range c.length).map (trRef h l c) := rfl

/-- Unfolding one step of the smoothing loop. -/
theorem atrRest_succ (tr : List ℚ) (P : ℕ) (base : ℚ) (k : ℕ) :
    atrRest tr P base (k + 1) = atrRest tr P base k
      ++ [((atrRest tr P base k).getLastD base * ((P : ℚ) - 1)
        + tr.getD (P + (atrRest tr P base k).length) 0) / (P : ℚ)] := by
  unfold atrRest
  rw [List.range_succ, List.foldl_append]
  rfl

/-- The smoothing loop emits exactly one value per iteration. -/
theorem atrRest_length (tr : List ℚ) (P : ℕ) (base : ℚ) :
    ∀ k, (atrRest tr P base k).length = k := by
  intro k
  induction k with
  | zero => rfl
  | succ k ih => rw [atrRest_succ, List.length_append, ih]; rfl

/-- Indexing a tabulated list. -/
theorem range_map_getD (f : ℕ → ℚ) (n i : ℕ) (hi : i < n) :
    ((List.range n).map f).getD i 0 = f i := by
  rw [List.getD_eq_getElem _ _ (by simpa using hi), List.getElem_map,
    List.getElem_range]

/-- Entries of the true-range array within bounds are the spec TR. -/
theorem trList_getD (h l c : List ℚ) (i : ℕ) (hi : i < c.length) :
    (trList h l c).getD i 0 = trRef h l c i := by
  rw [trList_eq]
  exact range_map_getD _ _ _ hi

/-- The reference ATR at index `P − 1` is the mean of the first `P`
true ranges. -/
theorem atrRef_base (h l c : List ℚ) (P : ℕ) (hP : 1 ≤ P)
    (hn : ¬ c.length < P) :
    atrRef h l c P (P - 1)
      = some (((List.range P).map (trRef h l c)).sum / (P : ℚ)) := by
  rw [atrRef.eq_def]
  rw [if_neg hn, if_neg (by omega), if_pos (by omega)]

/-- The reference ATR recurrence for `i ≥ P`. -/
theorem atrRef_succ (h l c : List ℚ) (P : ℕ) (hP : 1 ≤ P)
    (hn : ¬ c.length < P) (i : ℕ) (hi : P ≤ i) :
    atrRef h l c P i = (atrRef h l c P (i - 1)).map fun prev =>
      (prev * ((P : ℚ) - 1) + trRef h l c i) / (P : ℚ) := by
  obtain ⟨j, rfl⟩ : ∃ j, i = j + 1 := ⟨i - 1, by omega⟩
  rw [atrRef.eq_def]
  rw [if_neg hn, if_neg (by omega), if_neg (by omega)]
  norm_num



/-- Every entry of the smoothing loop matches the reference ATR at
its index. -/
theorem atrRest_spec (h l c : List ℚ) (P : ℕ) (hP : 1 ≤ P)
    (hn : ¬ c.length < P) (base : ℚ)
    (hbase : atrRef h l c P (P - 1) = some base) :
    ∀ k, k ≤ c.length - P → ∀ j, j < k →
      some ((atrRest (trList h l c) P base k).getD j 0)
        = atrRef h l c P (P + j) := by
  intro k
  induction k with
  | zero => exact fun _ j hj => absurd hj (Nat.not_lt_zero j)
  | succ k ih =>
    intro hk j hj
    have hlen : (atrRest (trList h l c) P base k).length = k :=
      atrRest_length _ _ _ _
    rw [atrRest_succ]
    rcases Nat.lt_succ_iff_lt_or_eq.mp hj with hjk | rfl
    · rw [List.getD_append _ _ _ _ (by rw [hlen]; exact hjk)]
      exact ih (by omega) j hjk
    · rw [List.getD_append_right _ _ _ _ hlen.le]
      rw [hlen, Nat.sub_self, List.getD_cons_zero]
      rw [atrRef_succ h l c P hP hn (P + j) (by omega)]
      cases j with
      | zero =>
        rw [show atrRest (trList h l c) P base 0 = [] from rfl]
        simp only [List.getLastD_nil, List.length_nil, Nat.add_zero]
        rw [hbase, Option.map_some']
        rw [trList_getD h l c P (by omega)]
      | succ j' =>
        have hlen' : (atrRest (trList h l c) P base (j' + 1)).length = j' + 1 :=
          atrRest_length _ _ _ _
        have hgl : (atrRest (trList h l c) P base (j' + 1)).getLastD base
            = (atrRest (trList h l c) P base (j' + 1)).getD j' 0 := by
          rw [List.getLastD_eq_getLast?, List.getLast?_eq_getElem?, hlen']
          rw [Nat.add_sub_cancel]
          rw [List.getElem?_eq_getElem (by omega)]
          rw [List.getD_eq_getElem _ _ (by omega)]
          rfl
        have hih := ih (by omega) j' (Nat.lt_succ_self j')
        rw [show P + (j' + 1) - 1 = P + j' by omega, ← hih, Option.map_some']
        rw [hgl]
        rw [trList_getD h l c (P + (j' + 1)) (by omega)]



/-- Reading any index of an all-`none` prefix yields `none`. -/
theorem getD_replicate_none (k i : ℕ) :
    (List.replicate k (none : Option ℚ)).getD i none = none := by
  induction k generalizing i with
  | zero => simp [List.getD]
  | succ k ih =>
    cases i with
    | zero => simp [List.replicate_succ]
    | succ i => simp [List.replicate_succ, ih i]

/-- The first `P` true ranges as a tabulated list. -/
theorem trList_take (h l c : List ℚ) (P : ℕ) (hPn : P ≤ c.length) :
    (trList h l c).take P = (List.range P).map (trRef h l c) := by
  rw [trList_eq, ← List.map_take, List.take_range, min_eq_left hPn]

/-! ## Claim C5: `wilder_atr` matches the reference definition -/

/-- C5.  For every `P ≥ 1`, `wilder_atr` has the length of the input
and agrees at every index with the reference Wilder ATR `atrRef`
(undefined below `P − 1` or when the series is shorter than `P`;
mean of the first `P` true ranges at `P − 1`; Wilder recurrence
`(prev·(P−1) + TR[i]) / P` above). -/
theorem C5_wilder_atr_spec (h l c : List ℚ) (P : ℕ) (hP : 1 ≤ P) :
    (wilder_atr h l c P).length = c.length ∧
    ∀ i, i < c.length →
      (wilder_atr h l c P).getD i none = atrRef h l c P i := by
  by_cases hn : c.length < P
  · constructor
    · simp [wilder_atr, if_pos hn]
    · intro i hi
      simp only [wilder_atr, if_pos hn]
      rw [getD_replicate_none, atrRef.eq_def, if_pos hn]
  · have hPn : P ≤ c.length := not_lt.mp hn
    have htake : (trList h l c).take P = (List.range P).map (trRef h l c) :=
      trList_take h l c P hPn
    have hbase : atrRef h l c P (P - 1)
        = some (((trList h l c).take P).sum / (P : ℚ)) := by
      rw [atrRef_base h l c P hP hn, htake]
    constructor
    · simp only [wilder_atr, if_neg hn]
      simp [List.length_append, List.length_replicate, List.length_map,
        atrRest_length]
      omega
    · intro i hi
      simp only [wilder_atr, if_neg hn]
      rcases lt_trichotomy i (P - 1) with hlt | heq | hgt
      · rw [List.getD_append _ _ _ _
          (by simp [List.length_append, List.length_replicate]; omega)]
        rw [List.getD_append _ _ _ _ (by simp [List.length_replicate]; omega)]
        rw [getD_replicate_none, atrRef.eq_def]
        rw [if_neg hn]
        rw [if_pos (by omega : i + 1 < P)]
      · subst heq
        rw [List.getD_append _ _ _ _
          (by simp [List.length_append, List.length_replicate])]
        rw [List.getD_append_right _ _ _ _
          (by simp [List.length_replicate])]
        rw [List.length_replicate, Nat.sub_self, List.getD_cons_zero]
        exact hbase.symm
      · have hPi : P ≤ i := by omega
        rw [List.getD_append_right _ _ _ _
          (by simp [List.length_append, List.length_replicate]; omega)]
        have hidx : i - (List.replicate (P - 1) (none : Option ℚ)
            ++ [some (((trList h l c).take P).sum / (P : ℚ))]).length = i - P := by
          simp [List.length_append, List.length_replicate]
          omega
        rw [hidx]
        have hmem : i - P < (atrRest (trList h l c) P
            (((trList h l c).take P).sum / (P : ℚ)) (c.length - P)).length := by
          rw [atrRest_length]; omega
        rw [List.getD_eq_getElem _ _ (by simpa using hmem), List.getElem_map]
        have hs := atrRest_spec h l c P hP hn
          (((trList h l c).take P).sum / (P : ℚ)) hbase
          (c.length - P) (le_refl _) (i - P) (by omega)
        rw [List.getD_eq_getElem _ _ hmem] at hs
        rw [show P + (i - P) = i from by omega] at hs
        exact hs



/-- Witness for C5 on `flipCandles` with period 2 at the last
index. -/
theorem C5_wilder_atr_spec_witness :
    (wilder_atr (flipCandles.map (·.high)) (flipCandles.map (·.low))
        (flipCandles.map (·.close)) 2).length
      = (flipCandles.map (·.close)).length ∧
    (wilder_atr (flipCandles.map (·.high)) (flipCandles.map (·.low))
        (flipCandles.map (·.close)) 2).getD 3 none
      = atrRef (flipCandles.map (·.high)) (flipCandles.map (·.low))
        (flipCandles.map (·.close)) 2 3 := by
  have h := C5_wilder_atr_spec (flipCandles.map (·.high)) (flipCandles.map (·.low))
    (flipCandles.map (·.close)) 2 (by omega)
  exact ⟨h.1, h.2 3 (by norm_num [flipCandles])⟩


end StrategyCore
